import Mathlib

/-!
Verification of the oobabot response-decision and message-queue core.

Shallow embedding of the relevant parts of the source tree:
  src/oobabot/decide_to_respond.py
  src/oobabot/repetition_tracker.py
  src/oobabot/immersion_breaking_filter.py
  src/oobabot/discord_bot.py

Python floats are modelled as rationals, Python dicts as association
lists or as lookup functions, Python sets as finsets or lists, and
fallible code (code that can raise) returns Option.
-/

/-! ## Response chance model: decide_to_respond.py -/

/-- Loop body of DecideToRespond.calc_interpolated_response_chance
(decide_to_respond.py lines 183-193).  The accumulator pair
(duration, chance) starts at (0, table[0][1]).  A division whose
divisor is zero (a ZeroDivisionError in the source) is modelled by
returning none. -/
def calcAux (t : ℚ) (duration chance : ℚ) : List (ℚ × ℚ) → Option ℚ
  | [] => some 0
  | (nd, nc) :: rest =>
      if duration ≤ t ∧ t ≤ nd then
        if nd - duration = 0 then none
        else some (chance + (nc - chance) * ((t - duration) / (nd - duration)))
      else calcAux t nd nc rest

/-- DecideToRespond.calc_interpolated_response_chance
(decide_to_respond.py lines 169-193): linearly interpolated response
chance for the elapsed time t over a calibration table.  An empty
table means always respond (chance 1). -/
def calc_interpolated_response_chance (t : ℚ) :
    List (ℚ × ℚ) → Option ℚ
  | [] => some 1
  | (d0, c0) :: rest => calcAux t 0 c0 ((d0, c0) :: rest)

/-- Lexicographic order on pairs, as used by Python list.sort() on
tuples of floats (decide_to_respond.py line 120). -/
def tupleLe (a b : ℚ × ℚ) : Prop :=
  a.1 < b.1 ∨ (a.1 = b.1 ∧ a.2 ≤ b.2)

instance : DecidableRel tupleLe := fun a b => by
  unfold tupleLe; infer_instance

instance : IsTotal (ℚ × ℚ) tupleLe where
  total a b := by
    rcases lt_trichotomy a.1 b.1 with h | h | h
    · exact Or.inl (Or.inl h)
    · rcases le_total a.2 b.2 with h2 | h2
      · exact Or.inl (Or.inr ⟨h, h2⟩)
      · exact Or.inr (Or.inr ⟨h.symm, h2⟩)
    · exact Or.inr (Or.inl h)

instance : IsTrans (ℚ × ℚ) tupleLe where
  trans a b c hab hbc := by
    rcases hab with h | ⟨h, h2⟩
    · rcases hbc with h' | ⟨h', _⟩
      · exact Or.inl (h.trans h')
      · exact Or.inl (h' ▸ h)
    · rcases hbc with h' | ⟨h', h2'⟩
      · exact Or.inl (h ▸ h')
      · exact Or.inr ⟨h.trans h', h2.trans h2'⟩

/-- Processing of one calibration row by the DecideToRespond
constructor (decide_to_respond.py lines 108-120).  The inner loop
runs over the two components of the row; for each component it
raises (none) if the component is negative, and otherwise appends
the whole row and re-sorts the table.  Each accepted row is
therefore appended twice.  Python list.sort() is stable, so its
result on these tables agrees with insertion sort under tupleLe. -/
def addRow (table : List (ℚ × ℚ)) (row : ℚ × ℚ) :
    Option (List (ℚ × ℚ)) :=
  if row.1 < 0 then none
  else
    let t1 := List.insertionSort tupleLe (table ++ [row])
    if row.2 < 0 then none
    else some (List.insertionSort tupleLe (t1 ++ [row]))

/-- Table building in the DecideToRespond constructor
(decide_to_respond.py lines 104-120): fold addRow over the
configured rows, starting from the empty table.  none models the
ValueError raised on a negative duration or chance. -/
def buildTable (rows : List (ℚ × ℚ)) : Option (List (ℚ × ℚ)) :=
  rows.foldlM addRow []

/-- DecideToRespond.provide_voice_response
(decide_to_respond.py lines 250-278).  The random draw is passed in
as the rational r.  Returns none when the underlying interpolation
raises, or when the fallback indexing table[-1] raises on an empty
table. -/
def provide_voice_response (time_since_last_mention : ℚ)
    (voice_table : List (ℚ × ℚ)) (number_of_participants : ℕ)
    (r : ℚ) : Option (Bool × ℚ) :=
  if number_of_participants = 1 then some (true, 1)
  else
    match calc_interpolated_response_chance time_since_last_mention
        voice_table with
    | none => none
    | some c =>
        match (if c = 0 then (voice_table.getLast?).map Prod.snd
               else some c) with
        | none => none
        | some c1 =>
            let c2 := c1 / (min 3 number_of_participants : ℕ)
            some (decide (r ≤ c2), c2)

/-- Spec section 4.1 voice rule, written from the words of the spec: the
interpolated chance, falling back to the last table entry when the
interpolation yields 0, divided by min(3, participantCount). -/
def specVoiceChance (c : ℚ) (tbl : List (ℚ × ℚ)) (n : ℕ) : ℚ :=
  (if c = 0 then ((tbl.getLast?).getD (0, 0)).2 else c) / (min 3 n : ℕ)

/-! ## Repetition tracker: repetition_tracker.py -/

/-- Message record as used by the repetition tracker (message id and
body text of a message the bot sent). -/
structure RepMessage where
  message_id : ℕ
  body_text : String

/-- State of RepetitionTracker (repetition_tracker.py lines 28-39):
the configured thresholds and the per-channel map
channel id to (last canonical text, throttle message id, repetition
count).  The token-set similarity ratio of the external thefuzz
library, already divided by 100, is carried as an opaque function. -/
structure RepetitionTracker where
  repetition_threshold : ℕ
  similarity_threshold : ℚ
  fuzz_ratio : String → String → ℚ
  repetition_count : ℕ → Option (String × ℕ × ℕ)

/-- Python str.isspace characters relevant to str.strip(). -/
def pyIsSpace (c : Char) : Bool :=
  c = ' ' ∨ c = '\t' ∨ c = '\n' ∨ c = '\r' ∨ c = '\x0b' ∨ c = '\x0c'

/-- Python str.strip(): drop leading and trailing whitespace. -/
def pyStrip (l : List Char) : List Char :=
  ((l.dropWhile pyIsSpace).reverse.dropWhile pyIsSpace).reverse

/-- Python str.lower() on an ASCII character. -/
def pyLowerChar (c : Char) : Char :=
  if 'A' ≤ c ∧ c ≤ 'Z' then Char.ofNat (c.toNat + 32) else c

/-- RepetitionTracker.make_canonical (repetition_tracker.py lines
148-149): trim then lowercase. -/
def make_canonical (content : String) : String :=
  ⟨(pyStrip content.data).map pyLowerChar⟩

/-- RepetitionTracker.should_throttle (repetition_tracker.py lines
140-146): false when the count or the configured threshold is zero
(falsy), otherwise count at least threshold. -/
def should_throttle (rt : RepetitionTracker) (repetition_count : ℕ) : Bool :=
  if repetition_count = 0 ∨ rt.repetition_threshold = 0 then false
  else decide (rt.repetition_threshold ≤ repetition_count)

/-- RepetitionTracker.get_throttle_message_id (repetition_tracker.py
lines 41-49); the stored default is (None, 0, 0) in the source, of
which only the two numeric components are read. -/
def get_throttle_message_id (rt : RepetitionTracker) (channel_id : ℕ) : ℕ :=
  if should_throttle rt ((rt.repetition_count channel_id).getD ("", 0, 0)).2.2
  then ((rt.repetition_count channel_id).getD ("", 0, 0)).2.1
  else 0

/-- RepetitionTracker.log_message (repetition_tracker.py lines
91-138). -/
def log_message (rt : RepetitionTracker) (channel_id : ℕ) (m : RepMessage) :
    RepetitionTracker :=
  let message_text := make_canonical m.body_text
  let s := (rt.repetition_count channel_id).getD ("", 0, 0)
  let repetition_found :=
    if s.1 = message_text then true
    else if rt.similarity_threshold ≠ 0 then
      decide (rt.similarity_threshold ≤ rt.fuzz_ratio s.1 message_text)
    else false
  let new_count := if repetition_found then s.2.2 + 1 else 0
  let new_throttle_id :=
    if should_throttle rt new_count then m.message_id else s.2.1
  { rt with repetition_count :=
      fun c => if c = channel_id then
          some (message_text, new_throttle_id, new_count)
        else rt.repetition_count c }

/-- Example tracker: repetition_threshold 2, similarity threshold 0. -/
def rtEx0 : RepetitionTracker :=
  ⟨2, 0, fun _ _ => 0, fun _ => none⟩

/-- Example tracker after the bot sent Hello once in channel 7. -/
def rtEx1 : RepetitionTracker := log_message rtEx0 7 ⟨1, "Hello"⟩

/-- Example tracker after a first repetition of Hello. -/
def rtEx2 : RepetitionTracker := log_message rtEx1 7 ⟨2, "Hello"⟩

/-- Example tracker after a second consecutive repetition of Hello. -/
def rtEx3 : RepetitionTracker := log_message rtEx2 7 ⟨3, "Hello"⟩

/-- Example tracker after a non-repeated message: the repeat count
resets to 0 while the stored throttle message id 3 is retained. -/
def rtEx4 : RepetitionTracker := log_message rtEx3 7 ⟨4, "Bye"⟩

/-! ## Response decision engine: decide_to_respond.py -/

/-- Kind of a normalized message, following the isinstance checks of
decide_to_respond.py (types.DirectMessage versus types.ChannelMessage). -/
inductive MessageKind | dm | channel
deriving DecidableEq

/-- Normalized message record, following the spec section 6 contract
for the chat-platform gateway (the defining module types.py is not
part of the source tree; only the fields read by the embedded code
are carried). -/
structure GenericMessage where
  message_id : ℕ
  channel_id : ℕ
  guild_id : ℕ
  author_id : ℕ
  author_is_bot : Bool
  body_text : String
  send_timestamp : ℚ
  mentions : List ℕ
  kind : MessageKind

/-- State and configuration of DecideToRespond that the decision path
reads (decide_to_respond.py lines 90-133).  The wakeword regex search
of persona.contains_wakeword is carried as an opaque predicate.  The
guaranteed_responses dict maps a channel id to the set of message ids
guaranteed a response. -/
structure DecideToRespond where
  ignore_dms : Bool
  ignore_bots : Bool
  ignore_prefixes : List String
  contains_wakeword : String → Bool
  guaranteed_responses : ℕ → Option (Finset ℕ)

/-- DecideToRespond.is_directly_mentioned (decide_to_respond.py lines
135-158): direct messages are answered unless DMs are ignored; channel
messages are direct when they @-mention the bot or contain a
wakeword. -/
def is_directly_mentioned (d : DecideToRespond) (our_user_id : ℕ)
    (m : GenericMessage) : Bool :=
  match m.kind with
  | .dm => !d.ignore_dms
  | .channel =>
      if our_user_id ∈ m.mentions then true
      else d.contains_wakeword m.body_text

/-- DecideToRespond.is_hidden_message (decide_to_respond.py lines
160-167). -/
def is_hidden_message (d : DecideToRespond) (content : String) : Bool :=
  d.ignore_prefixes.any (fun p => content.startsWith p)

/-- DecideToRespond.should_ignore_message (decide_to_respond.py lines
280-309). -/
def should_ignore_message (d : DecideToRespond) (bot_user_id : ℕ)
    (m : GenericMessage) : Bool :=
  if m.author_is_bot && d.ignore_bots then true
  else if m.author_id = bot_user_id then true
  else if is_hidden_message d m.body_text then true
  else false

/-- Decision tail of DecideToRespond.should_respond_to_message for a
message that is not guaranteed a response (decide_to_respond.py lines
335-348).  The random draw of the unsolicited-response path is folded
into the oracle argument. -/
def should_respond_rest (d : DecideToRespond)
    (unsolicited : GenericMessage → Bool) (bot_user_id : ℕ)
    (m : GenericMessage) (is_direct_mention : Bool) : Bool × Bool :=
  if should_ignore_message d bot_user_id m then (false, false)
  else if is_direct_mention then (true, true)
  else if m.kind = .channel && unsolicited m then (true, false)
  else (false, false)

/-- DecideToRespond.should_respond_to_message (decide_to_respond.py
lines 311-348).  Returns ((should_respond, is_direct_mention), new
state); the guaranteed branch consumes the message id from the
guaranteed set and deletes the per-channel set when it empties. -/
def should_respond_to_message (d : DecideToRespond)
    (unsolicited : GenericMessage → Bool) (bot_user_id : ℕ)
    (m : GenericMessage) : (Bool × Bool) × DecideToRespond :=
  let is_direct_mention := is_directly_mentioned d bot_user_id m
  match d.guaranteed_responses m.channel_id with
  | some g =>
      if g.Nonempty ∧ m.message_id ∈ g then
        let g1 := g.erase m.message_id
        (((true, is_direct_mention)),
         { d with guaranteed_responses := fun c =>
             if c = m.channel_id then (if g1 = ∅ then none else some g1)
             else d.guaranteed_responses c })
      else (should_respond_rest d unsolicited bot_user_id m is_direct_mention, d)
  | none => (should_respond_rest d unsolicited bot_user_id m is_direct_mention, d)

/-- DecideToRespond.guarantee_response (decide_to_respond.py lines
401-408). -/
def guarantee_response (d : DecideToRespond) (channel_id message_id : ℕ) :
    DecideToRespond :=
  { d with guaranteed_responses := fun c =>
      if c = channel_id then
        some (insert message_id ((d.guaranteed_responses channel_id).getD ∅))
      else d.guaranteed_responses c }

/-- Example decision state: no ignore rules, no wakewords, and message
id 5 guaranteed a response in channel 7. -/
def dtrEx : DecideToRespond :=
  ⟨false, false, [], fun _ => false, fun c => if c = 7 then some {5} else none⟩

/-- Example channel message with id 5 in channel 7 that @-mentions the
bot user 42. -/
def msgEx : GenericMessage :=
  ⟨5, 7, 0, 11, false, "hi there", 0, [42], .channel⟩

/-- Example decision state: message ids 5 and 9 guaranteed a response
in channel 7, no ignore rules, no wakewords. -/
def dtrEx2 : DecideToRespond :=
  ⟨false, false, [], fun _ => false, fun c => if c = 7 then some {5, 9} else none⟩

/-- Example channel message with id 5 in channel 7 that mentions
nobody. -/
def msgEx2 : GenericMessage :=
  ⟨5, 7, 0, 11, false, "hi there", 0, [], .channel⟩

/-! ## Message intake routing: discord_bot.py process_messages -/

/-- Discord message types distinguished by process_messages
(discord_bot.py lines 822-827 and 855-858). -/
inductive MsgType | default | reply | thread_starter_message | other
deriving DecidableEq

/-- Discord channel kinds distinguished by process_messages
(discord_bot.py lines 829-839): text channels, threads, voice
channels, and the private kinds (DM and group DM) covered by
discord.abc.PrivateChannel. -/
inductive ChannelKind | text | thread | voice | dm | group_dm | unusable
deriving DecidableEq

/-- Raw incoming message as read by process_messages. -/
structure RawMessage where
  message_id : ℕ
  channel_id : ℕ
  guild_id : ℕ
  author_id : ℕ
  author_is_bot : Bool
  body_text : String
  send_timestamp : ℚ
  mentions : List ℕ
  mtype : MsgType
  ckind : ChannelKind

/-- Message types process_messages can handle (discord_bot.py lines
822-827). -/
def allowed_message_type : MsgType → Bool
  | .default => true
  | .reply => true
  | .thread_starter_message => true
  | .other => false

/-- Channel types the bot can respond in (discord_bot.py lines
829-839). -/
def respondable_channel : ChannelKind → Bool
  | .text => true
  | .thread => true
  | .voice => true
  | .dm => true
  | .group_dm => true
  | .unusable => false

/-- The conversion performed by
discord_utils.discord_message_to_generic_message as far as the
decision path reads it: a DM channel yields a direct message, any
other respondable channel a channel message. -/
def raw_to_generic (r : RawMessage) : GenericMessage :=
  ⟨r.message_id, r.channel_id, r.guild_id, r.author_id, r.author_is_bot,
   r.body_text, r.send_timestamp, r.mentions,
   if r.ckind = .dm then .dm else .channel⟩

/-- Routes an incoming message takes through the front half of
DiscordBot.process_messages (discord_bot.py lines 810-871): rejected
for its type, dropped because the channel is panicking, sent through
the accumulation buffer, or enqueued directly. -/
inductive IntakeRoute | unsupported | dropped_panic | buffered | enqueued_direct
deriving DecidableEq

/-- Front half of DiscordBot.process_messages (discord_bot.py lines
810-871): the type filters, the guaranteed-response lookup, the panic
drop, and the choice between the accumulation buffer and direct
enqueueing. -/
def message_intake_route (message_accumulation_period : ℚ)
    (is_panicking : Bool) (d : DecideToRespond) (bot_user_id : ℕ)
    (r : RawMessage) : IntakeRoute :=
  if ¬ allowed_message_type r.mtype then .unsupported
  else if ¬ respondable_channel r.ckind then .unsupported
  else
    let m := raw_to_generic r
    let is_guaranteed : Bool :=
      match d.guaranteed_responses r.channel_id with
      | some g => decide g.Nonempty && decide (r.message_id ∈ g)
      | none => false
    if ¬ is_guaranteed ∧ is_panicking then .dropped_panic
    else if message_accumulation_period ≠ 0 ∧ ¬ is_guaranteed ∧
        r.ckind ≠ .dm ∧ (r.mtype = .default ∨ r.mtype = .reply) ∧
        ¬ should_ignore_message d bot_user_id m then .buffered
    else .enqueued_direct

/-! ## MessageQueue per-channel maps: discord_bot.py lines 34-384 -/

/-- The two per-channel maps of MessageQueue that the removal
operations touch (discord_bot.py lines 63-65): the message queues
(a deque per channel, head = left end) and the response tasks (their
done flag).  Messages are identified by their ids. -/
structure MessageQueue where
  queues : ℕ → Option (List ℕ)
  response_tasks : ℕ → Option Bool

/-- Replaces one channel's queue. -/
def mq_set_queue (mq : MessageQueue) (ch : ℕ) (l : List ℕ) : MessageQueue :=
  { mq with queues := fun c => if c = ch then some l else mq.queues c }

/-- MessageQueue.remove_queue (discord_bot.py lines 255-259). -/
def mq_remove_queue (mq : MessageQueue) (ch : ℕ) : MessageQueue :=
  { mq with queues := fun c => if c = ch then none else mq.queues c }

/-- MessageQueue._remove_empty_queue (discord_bot.py lines 371-379):
if the channel has a queue and it is empty (falsy), remove the
queue entry. -/
def mq_remove_empty_queue (mq : MessageQueue) (ch : ℕ) : MessageQueue :=
  if mq.queues ch = some [] then mq_remove_queue mq ch else mq

/-- MessageQueue.pop (discord_bot.py lines 280-285): removes from the
right end of the deque; none models the ValueError on a missing
queue and the IndexError on an empty deque. -/
def mq_pop (mq : MessageQueue) (ch : ℕ) : Option (ℕ × MessageQueue) :=
  match mq.queues ch with
  | none => none
  | some l =>
      match l.getLast? with
      | none => none
      | some m => some (m, mq_remove_empty_queue (mq_set_queue mq ch l.dropLast) ch)

/-- MessageQueue.popleft (discord_bot.py lines 287-292). -/
def mq_popleft (mq : MessageQueue) (ch : ℕ) : Option (ℕ × MessageQueue) :=
  match mq.queues ch with
  | none => none
  | some [] => none
  | some (m :: rest) => some (m, mq_remove_empty_queue (mq_set_queue mq ch rest) ch)

/-- MessageQueue.clear (discord_bot.py lines 294-298). -/
def mq_clear (mq : MessageQueue) (ch : ℕ) : Option MessageQueue :=
  match mq.queues ch with
  | none => none
  | some _ => some (mq_remove_empty_queue (mq_set_queue mq ch []) ch)

/-- MessageQueue.remove (discord_bot.py lines 310-314); deque.remove
raises on a missing value. -/
def mq_remove (mq : MessageQueue) (ch m : ℕ) : Option MessageQueue :=
  match mq.queues ch with
  | none => none
  | some l =>
      if m ∈ l then some (mq_remove_empty_queue (mq_set_queue mq ch (l.erase m)) ch)
      else none

/-- MessageQueue.__delitem__ (discord_bot.py lines 353-360): deletes
by index; a missing channel is silently ignored by the source, an
out-of-range index raises. -/
def mq_delitem (mq : MessageQueue) (ch i : ℕ) : Option MessageQueue :=
  match mq.queues ch with
  | none => some mq
  | some l =>
      if i < l.length then
        some (mq_remove_empty_queue (mq_set_queue mq ch (l.eraseIdx i)) ch)
      else none

/-- MessageQueue._done_callback (discord_bot.py lines 381-384): runs
when a response task finishes; removes the task entry, then any
now-empty queue entry. -/
def mq_done_callback (mq : MessageQueue) (ch : ℕ) : MessageQueue :=
  mq_remove_empty_queue
    { mq with response_tasks := fun c => if c = ch then none else mq.response_tasks c }
    ch

/-- No channel id is mapped to an empty queue. -/
def NoEmptyQueues (mq : MessageQueue) : Prop :=
  ∀ c, mq.queues c ≠ some []

/-! ## Mention tracker: decide_to_respond.py LastMentionTimes -/

/-- Python sorted(values)[-cap]: the cap-th largest value, read at
index (length - cap) of the ascending sort (decide_to_respond.py
lines 47-51).  Python list.sort on floats agrees with insertion sort
under the usual order. -/
def nth_largest (vals : List ℚ) (cap : ℕ) : ℚ :=
  (vals.insertionSort (· ≤ ·)).getD (vals.length - cap) 0

/-- State of LastMentionTimes (decide_to_respond.py lines 14-32): the
configured cache timeout and channel cap, the per-channel mention
timestamps (an association list modelling the dict), and the cooldown
set. -/
structure LastMentionTimes where
  cache_timeout : ℚ
  unsolicited_channel_cap : ℕ
  entries : List (ℕ × ℚ)
  cooldowns : List ℕ

/-- Oldest time to keep, as computed by
LastMentionTimes.purge_outdated (decide_to_respond.py lines 44-52):
the cache-timeout threshold, raised to the cap-th largest stored
timestamp when the cap is set and exceeded. -/
def purge_threshold (latest : ℚ) (lmt : LastMentionTimes) : ℚ :=
  let oldest0 := latest - lmt.cache_timeout
  if lmt.unsolicited_channel_cap ≠ 0 ∧
      lmt.unsolicited_channel_cap < lmt.entries.length then
    max oldest0 (nth_largest (lmt.entries.map Prod.snd)
      lmt.unsolicited_channel_cap)
  else oldest0

/-- LastMentionTimes.purge_outdated (decide_to_respond.py lines
34-62): keep entries at or above the threshold, intersect the
cooldowns with the surviving channels, and report whether any
mention is retained. -/
def purge_outdated (latest : ℚ) (lmt : LastMentionTimes) :
    Bool × LastMentionTimes :=
  let purged := lmt.entries.filter
    (fun p => decide (purge_threshold latest lmt ≤ p.2))
  (!purged.isEmpty,
   { lmt with
     entries := purged,
     cooldowns := lmt.cooldowns.filter
       (fun c => (purged.map Prod.fst).contains c) })

/-- LastMentionTimes.time_since_last_mention (decide_to_respond.py
lines 71-82): seconds between the message timestamp and the stored
mention, none when the channel has no entry. -/
def lmt_time_since_last_mention (lmt : LastMentionTimes) (m : GenericMessage) :
    Option ℚ :=
  (lmt.entries.find? (fun q => q.1 == m.channel_id)).map
    (fun q => m.send_timestamp - q.2)

/-- The purge pass of DecideToRespond.time_since_last_mention
(decide_to_respond.py lines 384-391): purge each guild tracker with
the message timestamp and keep only guilds whose purge reports a
retained mention. -/
def purge_guilds (ts : ℚ) (guilds : List (ℕ × LastMentionTimes)) :
    List (ℕ × LastMentionTimes) :=
  (guilds.map (fun p => (p.1, purge_outdated ts p.2))).filterMap
    (fun p => if p.2.1 then some (p.1, p.2.2) else none)

/-- The lookup tail of DecideToRespond.time_since_last_mention
(decide_to_respond.py lines 393-399): none when the guild has no
tracker or an empty (falsy) one, else the tracker answer. -/
def dtr_answer (m : GenericMessage) (guilds : List (ℕ × LastMentionTimes)) :
    Option ℚ :=
  match guilds.find? (fun p => p.1 == m.guild_id) with
  | none => none
  | some p =>
      if p.2.entries.isEmpty then none else lmt_time_since_last_mention p.2 m

/-- DecideToRespond.time_since_last_mention (decide_to_respond.py
lines 377-399): returns the purged guild map (the state after the
call) and the computed time since the last mention. -/
def dtr_time_since_last_mention (m : GenericMessage)
    (guilds : List (ℕ × LastMentionTimes)) :
    List (ℕ × LastMentionTimes) × Option ℚ :=
  (purge_guilds m.send_timestamp guilds,
   dtr_answer m (purge_guilds m.send_timestamp guilds))

/-! ## Immersion-breaking filter: immersion_breaking_filter.py -/

/-- Characters of the line split pattern
(immersion_breaking_filter.py line 34). -/
def isLineSplitChar (c : Char) : Bool :=
  c = '\r' ∨ c = '\n' ∨ c = '\t' ∨ c = '\x0c' ∨ c = '\x0b'

/-- Maximal runs of line-split and non-line-split characters, in
order. -/
def charRuns : List Char → List (List Char)
  | [] => []
  | c :: rest =>
      match charRuns rest with
      | [] => [[c]]
      | r :: rs =>
          if isLineSplitChar c = isLineSplitChar (r.headD c) then (c :: r) :: rs
          else [c] :: r :: rs

/-- ImmersionBreakingFilter.split (immersion_breaking_filter.py lines
65-71): re.split with a capturing separator group, yielding the
alternating list text, separator, text, ..., text with empty text
pieces at the boundaries. -/
def line_split (s : String) : List String :=
  let rs := charRuns s.data
  let rs1 := match rs with
    | [] => [[]]
    | r :: _ => if isLineSplitChar (r.headD ' ') then [] :: rs else rs
  let rs2 := match rs1.getLast? with
    | some r => if isLineSplitChar (r.headD ' ') then rs1 ++ [[]] else rs1
    | none => rs1
  rs2.map (fun l => ⟨l⟩)

/-- Python str.rstrip(" "). -/
def rstripSpaces (s : String) : String :=
  ⟨(s.data.reverse.dropWhile (· = ' ')).reverse⟩

/-- Python str.split(marker, 1) when the marker occurs, also serving
as the substring test: the parts before and after the first
occurrence of the marker. -/
def splitFirst (marker : List Char) : List Char → Option (List Char × List Char)
  | [] => if marker.isPrefixOf ([] : List Char) then some ([], []) else none
  | c :: rest =>
      if marker.isPrefixOf (c :: rest) then
        some ([], (c :: rest).drop marker.length)
      else
        match splitFirst marker rest with
        | some (pre, post) => some (c :: pre, post)
        | none => none

/-- Modelled from the spec: the user-turn template (templates.py is not
part of the source tree) yields the speaker-name-prefix pattern of
immersion_breaking_filter.py lines 44-62 — 1 to 32 characters from
the class of space or non-whitespace, followed by a colon and a
space. -/
def spec_user_turn_match (s : String) : Bool :=
  let cs := s.data
  (List.range 33).any (fun i =>
    decide (1 ≤ i) && decide (i + 2 ≤ cs.length) &&
    (cs.take i).all (fun c => c == ' ' || !(pyIsSpace c)) &&
    List.isPrefixOf [':', ' '] (cs.drop i))

/-- Configuration and collaborators of ImmersionBreakingFilter
(immersion_breaking_filter.py lines 18-63): the enable switch, the
stop markers, the external pysbd segmenter, and the compiled bot and
user message patterns derived from the prompt templates. -/
structure FilterCtx where
  use_filter : Bool
  stop_markers : List String
  segment0 : String → List String
  bot_prompt_block : String
  bot_pattern_match : String → Option (String × String)
  user_pattern_match : String → Bool

/-- ImmersionBreakingFilter.segment (immersion_breaking_filter.py
lines 73-89): normalize each sentence of the external segmenter to a
single trailing space, except the last. -/
def ibf_segment (ctx : FilterCtx) (text : String) : List String :=
  let sentences := (ctx.segment0 text).map (fun x => rstripSpaces x ++ " ")
  match sentences.getLast? with
  | none => []
  | some last => sentences.dropLast ++ [rstripSpaces last]

/-- Leading whitespace of a line (immersion_breaking_filter.py lines
118-121). -/
def leading_ws (s : String) : String :=
  ⟨s.data.takeWhile pyIsSpace⟩

/-- Python str.strip over the line split characters
(immersion_breaking_filter.py line 112). -/
def pyStripLineSplit (s : String) : String :=
  ⟨((s.data.dropWhile isLineSplitChar).reverse.dropWhile isLineSplitChar).reverse⟩

/-- Stop-marker scan of one sentence (immersion_breaking_filter.py
lines 152-163): the first configured marker found in the sentence
yields the part of the sentence before it. -/
def stop_scan (markers : List String) (sentence : String) : Option String :=
  match markers with
  | [] => none
  | m :: rest =>
      match splitFirst m.data sentence.data with
      | some (pre, _) => some ⟨pre⟩
      | none => stop_scan rest sentence

/-- Sentence loop of ImmersionBreakingFilter.filter
(immersion_breaking_filter.py lines 124-171): returns the kept
sentences of one line and the abort flag. -/
def filter_sentences (ctx : FilterCtx) : List String → List String × Bool
  | [] => ([], false)
  | sentence :: rest =>
      let sentence1 :=
        match ctx.bot_pattern_match sentence with
        | some (name_seq, remaining) =>
            if (splitFirst ctx.bot_prompt_block.data name_seq.data).isSome then
              remaining
            else sentence
        | none => sentence
      if ctx.user_pattern_match sentence1 then ([], true)
      else
        match stop_scan ctx.stop_markers sentence1 with
        | some keep_part =>
            (if keep_part ≠ "" then [keep_part] else [], true)
        | none =>
            let step := filter_sentences ctx rest
            (if (pyStrip sentence1.data) ≠ [] then sentence1 :: step.1 else step.1,
             step.2)

/-- Line loop of ImmersionBreakingFilter.filter
(immersion_breaking_filter.py lines 111-180).  On abort the loop
breaks before the current line's kept sentences are joined and
appended, so they are dropped. -/
def filter_lines (ctx : FilterCtx) : List String → List String × Bool
  | [] => ([], false)
  | line :: rest =>
      if (pyStripLineSplit line).isEmpty then
        let step := filter_lines ctx rest
        (line :: step.1, step.2)
      else
        let lw := leading_ws line
        let sres := filter_sentences ctx (ibf_segment ctx line)
        if sres.2 then ([], true)
        else
          let good_line := lw ++ String.join sres.1
          let step := filter_lines ctx rest
          (if good_line ≠ "" then good_line :: step.1 else step.1, step.2)

/-- ImmersionBreakingFilter.filter (immersion_breaking_filter.py lines
91-183): returns the text to send and the abort flag. -/
def filter (ctx : FilterCtx) (text : String) : String × Bool :=
  if !ctx.use_filter then (text, false)
  else
    let res := filter_lines ctx (line_split text)
    (String.join res.1, res.2)

/-- Concrete segmenter behaviour of the external pysbd collaborator on
the example inputs: each is split at the sentence boundary after the
first period. -/
def segEx : String → List String := fun s =>
  if s = "Hello there. UserB: I am now UserB." then
    ["Hello there.", "UserB: I am now UserB."]
  else if s = "Hi there. Bye### stop." then
    ["Hi there.", "Bye### stop."]
  else [s]

/-- Example filter configuration: filter enabled, no stop markers, a
bot prompt block whose pattern matches neither example sentence, and
the spec speaker-prefix pattern. -/
def ctxEx : FilterCtx :=
  ⟨true, [], segEx, "Bot:", fun _ => none, spec_user_turn_match⟩

/-- Example filter configuration with one stop marker. -/
def ctxEx2 : FilterCtx :=
  ⟨true, ["###"], segEx, "Bot:", fun _ => none, spec_user_turn_match⟩

/-! ## Channel orchestration single-flight: discord_bot.py process_messages -/

/-- A response-processing task: its id and whether it has finished
(naturally or by cancellation). -/
structure RTask where
  tid : ℕ
  done : Bool

/-- Per-channel orchestration state of DiscordBot.process_messages
(discord_bot.py lines 810-945) with skip_in_progress_responses
enabled: the message queue (head = left end of the deque), every
response task created so far, the response_tasks dict entry for the
channel, the arrival handlers suspended on awaiting a cancelled task
(discord_bot.py lines 909-912), and the next fresh task id. -/
structure OrchState where
  queue : List ℕ
  tasks : List RTask
  registered : Option ℕ
  pending : List ℕ
  next_tid : ℕ

/-- Whether the task with the given id is done; an unknown id counts
as done. -/
def task_done (s : OrchState) (i : ℕ) : Bool :=
  ((s.tasks.find? (fun t => t.tid == i)).map RTask.done).getD true

/-- MessageQueue.is_responding (discord_bot.py lines 239-245): the
channel has a registered, unfinished response task. -/
def is_responding (s : OrchState) : Bool :=
  match s.registered with
  | some i => !(task_done s i)
  | none => false

/-- MessageQueue.add_response_task (discord_bot.py lines 202-212):
create a fresh running task and register it. -/
def spawn (s : OrchState) : OrchState :=
  { s with tasks := s.tasks ++ [⟨s.next_tid, false⟩],
           registered := some s.next_tid,
           next_tid := s.next_tid + 1 }

/-- Guarded task start at the end of process_messages (discord_bot.py
lines 936-945): abort if the queue is being processed or there is
nothing to process, otherwise start the response task.  The guard and
the start are atomic: no await separates them. -/
def maybe_spawn (s : OrchState) : OrchState :=
  if is_responding s = true ∨ s.queue = [] then s else spawn s

/-- Completion of the registered response task, covering both natural
termination and cancellation: the task becomes done and its done
callback removes the registration (discord_bot.py lines 381-384). -/
def complete (s : OrchState) : OrchState :=
  match s.registered with
  | none => s
  | some i =>
      { s with
        tasks := s.tasks.map (fun t => if t.tid == i then { t with done := true } else t),
        registered := none }

/-- Continuation of process_messages after awaiting the cancelled task
(discord_bot.py lines 913-945): re-check that the message is still
queued, re-derive the queue — collapsed to the newest message under
respond_to_latest_only or appended — and run the guarded start. -/
def resume_body (latest_only : Bool) (m : ℕ) (s : OrchState) : OrchState :=
  if m ∈ s.queue then
    maybe_spawn
      (if latest_only ∧ 1 < s.queue.length then { s with queue := [m] }
       else { s with queue := s.queue ++ [m] })
  else s

/-- One event of the per-channel orchestration, each event atomic
between suspension points of the single-threaded loop:
a message arrival finding no unfinished task runs the guarded start
(lines 869-945); an arrival of an ignorable message while responding
returns (lines 884-894); an arrival of a non-ignorable message while
responding cancels the active task — which completes and runs its
done callback — and suspends until the await returns (lines
902-912); a suspended arrival resumes later (lines 913-945); the
active task finishes naturally; the processing task pops a message
from the queue (lines 953-956). -/
inductive Step : OrchState → OrchState → Prop where
  | arrive_no_task (m : ℕ) (s : OrchState) :
      is_responding s = false →
      Step s (maybe_spawn { s with queue := m :: s.queue })
  | arrive_ignorable (m : ℕ) (s : OrchState) :
      is_responding s = true →
      Step s { s with queue := m :: s.queue }
  | arrive_cancel (m : ℕ) (s : OrchState) :
      is_responding s = true →
      Step s (complete { s with queue := m :: s.queue, pending := m :: s.pending })
  | resume (m : ℕ) (latest_only : Bool) (s : OrchState) :
      m ∈ s.pending →
      Step s (resume_body latest_only m { s with pending := s.pending.erase m })
  | finish (s : OrchState) :
      is_responding s = true →
      Step s (complete s)
  | drain (s : OrchState) :
      is_responding s = true → s.queue ≠ [] →
      Step s { s with queue := s.queue.dropLast }

/-- States reachable from the initial empty channel state by
arrival, resumption and completion events. -/
inductive Reachable : OrchState → Prop where
  | init : Reachable ⟨[], [], none, [], 0⟩
  | step {s s2 : OrchState} : Reachable s → Step s s2 → Reachable s2

/-- Number of response tasks of the channel that are running at an
instant. -/
def active_count (s : OrchState) : ℕ :=
  (s.tasks.filter (fun t => !t.done)).length

/-- Invariant of the orchestration: task ids are below the fresh
counter and distinct, and every unfinished task is the registered
one. -/
def OrchInv (s : OrchState) : Prop :=
  (∀ t ∈ s.tasks, t.tid < s.next_tid) ∧
  (s.tasks.map RTask.tid).Nodup ∧
  (∀ t ∈ s.tasks, t.done = false → s.registered = some t.tid)

/-- The initial orchestration state of a fresh channel. -/
def orch_init : OrchState := ⟨[], [], none, [], 0⟩

/-! ## Theorems -/

/-- C3: for the calibration table [(60, 0.9), (180, 0.5)],
calc_interpolated_response_chance returns 0.9 at elapsed 0, 0.7 at
elapsed 120 and 0.5 at elapsed 180; for every elapsed strictly beyond
the last threshold it returns 0; and for the empty table it returns 1
for every elapsed. -/
theorem interpolated_response_chance_correct :
    calc_interpolated_response_chance 0 [(60, 9/10), (180, 1/2)] = some (9/10) ∧
    calc_interpolated_response_chance 120 [(60, 9/10), (180, 1/2)] = some (7/10) ∧
    calc_interpolated_response_chance 180 [(60, 9/10), (180, 1/2)] = some (1/2) ∧
    (∀ t : ℚ, 180 < t →
      calc_interpolated_response_chance t [(60, 9/10), (180, 1/2)] = some 0) ∧
    (∀ t : ℚ, calc_interpolated_response_chance t ([] : List (ℚ × ℚ)) = some 1) := by
  refine ⟨?_, ?_, ?_, ?_, ?_⟩
  · norm_num [calc_interpolated_response_chance, calcAux]
  · norm_num [calc_interpolated_response_chance, calcAux]
  · norm_num [calc_interpolated_response_chance, calcAux]
  · intro t ht
    have h1 : ¬ (t ≤ 60) := by linarith
    have h2 : ¬ (t ≤ 180) := by linarith
    simp [calc_interpolated_response_chance, calcAux, h1, h2]
  · intro t; rfl

/-- Witness for C3: the quantified conjuncts applied at elapsed 200
(beyond the last threshold) and at elapsed 5 over the empty table. -/
theorem interpolated_response_chance_correct_witness :
    calc_interpolated_response_chance 200 [(60, 9/10), (180, 1/2)] = some 0 ∧
    calc_interpolated_response_chance 5 ([] : List (ℚ × ℚ)) = some 1 :=
  ⟨interpolated_response_chance_correct.2.2.2.1 200 (by norm_num),
   interpolated_response_chance_correct.2.2.2.2 5⟩

/-- C5: provide_voice_response with one participant returns (true, 1)
for every elapsed time, calibration table and random draw; with at
least two participants the returned chance is the interpolated chance,
falling back to the last table entry when the interpolation yields 0,
divided by min(3, participants). -/
theorem voice_response_chance_correct :
    (∀ (e r : ℚ) (tbl : List (ℚ × ℚ)),
      provide_voice_response e tbl 1 r = some (true, 1)) ∧
    (∀ (e r c : ℚ) (tbl : List (ℚ × ℚ)) (n : ℕ), 2 ≤ n →
      calc_interpolated_response_chance e tbl = some c →
      provide_voice_response e tbl n r =
        some (decide (r ≤ specVoiceChance c tbl n), specVoiceChance c tbl n)) := by
  constructor
  · intro e r tbl; rfl
  · intro e r c tbl n hn hc
    have hn1 : n ≠ 1 := by omega
    unfold provide_voice_response
    rw [if_neg hn1, hc]
    by_cases h0 : c = 0
    · subst h0
      have htbl : tbl ≠ [] := by
        intro h; subst h
        simp [calc_interpolated_response_chance] at hc
      obtain ⟨p, hp⟩ := Option.isSome_iff_exists.mp
        (List.getLast?_isSome.mpr htbl)
      simp [hp, specVoiceChance]
    · simp [h0, specVoiceChance]

/-- Witness for C5: five participants in a voice call, elapsed 120 over
the table [(60, 0.9), (180, 0.5)], random draw 1/100. -/
theorem voice_response_chance_correct_witness :
    provide_voice_response 120 [(60, 9/10), (180, 1/2)] 5 (1/100) =
      some (decide ((1/100 : ℚ) ≤ specVoiceChance (7/10) [(60, 9/10), (180, 1/2)] 5),
        specVoiceChance (7/10) [(60, 9/10), (180, 1/2)] 5) :=
  voice_response_chance_correct.2 120 (1/100) (7/10) [(60, 9/10), (180, 1/2)] 5
    (by norm_num) (by norm_num [calc_interpolated_response_chance, calcAux])

/-- Helper for C8: once the accumulated duration is strictly below the
elapsed time, the interpolation loop never divides by zero. -/
theorem calcAux_isSome {t : ℚ} : ∀ (l : List (ℚ × ℚ)) (d c : ℚ),
    d < t → (calcAux t d c l).isSome
  | [], d, c, _ => by simp [calcAux]
  | (nd, nc) :: rest, d, c, hd => by
    unfold calcAux
    by_cases hc : d ≤ t ∧ t ≤ nd
    · rw [if_pos hc]
      have hnz : nd - d ≠ 0 := by
        have := hc.2
        intro h
        have : nd = d := by linarith
        linarith [this ▸ hc.2]
      simp [hnz]
    · rw [if_neg hc]
      have hnd : nd < t := by
        rcases not_and_or.mp hc with h | h
        · exact absurd hd.le h
        · exact lt_of_not_le h
      exact calcAux_isSome rest nd nc hnd

/-- C8 (amended): for every calibration table the DecideToRespond
constructor accepts and every elapsed time at least 0, the
interpolation evaluates no division with divisor zero, provided the
elapsed time is nonzero or every threshold in the table is nonzero
(the excluded case, elapsed 0 over a table whose first threshold is 0,
does divide by zero and is exhibited by the counterexample). -/
theorem accepted_table_no_division_by_zero
    (rows t : List (ℚ × ℚ)) (e : ℚ)
    (hb : buildTable rows = some t) (he : 0 ≤ e)
    (hz : e ≠ 0 ∨ ∀ p ∈ t, p.1 ≠ 0) :
    (calc_interpolated_response_chance e t).isSome := by
  clear hb
  cases t with
  | nil => simp [calc_interpolated_response_chance]
  | cons hd rest =>
    obtain ⟨d0, c0⟩ := hd
    unfold calc_interpolated_response_chance calcAux
    by_cases hc : 0 ≤ e ∧ e ≤ d0
    · rw [if_pos hc]
      have hd0 : d0 - 0 ≠ 0 := by
        rcases hz with hz | hz
        · have h1 : 0 < e := lt_of_le_of_ne he (Ne.symm hz)
          have := hc.2
          intro h
          simp at h
          linarith
        · have := hz (d0, c0) (List.mem_cons_self _ _)
          simpa using this
      simp only [if_neg hd0]
      simp
    · rw [if_neg hc]
      have hd0 : d0 < e := by
        rcases not_and_or.mp hc with h | h
        · exact absurd he h
        · exact lt_of_not_le h
      exact calcAux_isSome rest d0 c0 hd0

/-- Counterexample for C8 as stated: the constructor accepts the table
row (0, 1/2) since its validation only rejects negative values, and
the resulting table divides by zero at elapsed time 0. -/
theorem accepted_table_division_by_zero_cex :
    buildTable [((0 : ℚ), (1 : ℚ)/2)] = some [(0, 1/2), (0, 1/2)] ∧
    calc_interpolated_response_chance 0 [((0 : ℚ), (1 : ℚ)/2), (0, 1/2)] = none := by
  constructor
  · norm_num [buildTable, addRow, List.foldlM, List.insertionSort,
      List.orderedInsert, tupleLe]
  · norm_num [calc_interpolated_response_chance, calcAux]

/-- Witness for C8: the amended theorem applied to the table built from
[(60, 0.9), (180, 0.5)] at elapsed 120. -/
theorem accepted_table_no_division_by_zero_witness :
    (calc_interpolated_response_chance 120
      [((60 : ℚ), (9 : ℚ)/10), (60, 9/10), (180, 1/2), (180, 1/2)]).isSome :=
  accepted_table_no_division_by_zero [(60, 9/10), (180, 1/2)] _ 120
    (by norm_num [buildTable, addRow, List.foldlM, List.insertionSort,
      List.orderedInsert, tupleLe])
    (by norm_num) (Or.inl (by norm_num))

/-- C7: get_throttle_message_id returns 0 whenever the current
consecutive-repeat count is below the threshold, even if a throttle
message id was recorded earlier; and with repetition_threshold 2,
after one repetition of identical canonical text it still returns 0,
while after the second consecutive repetition it returns the id of
the message that crossed the threshold. -/
theorem repetition_throttle_gating :
    (∀ (rt : RepetitionTracker) (ch : ℕ),
      ((rt.repetition_count ch).getD ("", 0, 0)).2.2 < rt.repetition_threshold →
      get_throttle_message_id rt ch = 0) ∧
    get_throttle_message_id rtEx2 7 = 0 ∧
    get_throttle_message_id rtEx3 7 = 3 := by
  refine ⟨?_, by decide, by decide⟩
  intro rt ch h
  have hst : should_throttle rt
      ((rt.repetition_count ch).getD ("", 0, 0)).2.2 = false := by
    unfold should_throttle
    by_cases h0 : ((rt.repetition_count ch).getD ("", 0, 0)).2.2 = 0 ∨
        rt.repetition_threshold = 0
    · rw [if_pos h0]
    · rw [if_neg h0, decide_eq_false_iff_not]
      omega
  unfold get_throttle_message_id
  rw [hst]
  simp

/-- Witness for C7: the state rtEx4 stores throttle message id 3 but
has repeat count 0, below the threshold 2, so the read returns 0. -/
theorem repetition_throttle_gating_witness :
    ((rtEx4.repetition_count 7).getD ("", 0, 0)).2.2 < rtEx4.repetition_threshold ∧
    get_throttle_message_id rtEx4 7 = 0 :=
  ⟨by decide, repetition_throttle_gating.1 rtEx4 7 (by decide)⟩

/-- Counterexample for C4 as stated: message 5 is in the guaranteed set
of its channel, yet should_respond_to_message returns (true, true)
rather than (true, false), because the second component is the
computed is_directly_mentioned value and the message @-mentions the
bot. -/
theorem guaranteed_response_pair_cex :
    dtrEx.guaranteed_responses msgEx.channel_id = some {5} ∧
    msgEx.message_id ∈ ({5} : Finset ℕ) ∧
    (should_respond_to_message dtrEx (fun _ => false) 42 msgEx).1 ≠ (true, false) := by
  refine ⟨by decide, by decide, ?_⟩
  decide

/-- C4 (amended): for every message whose id is in its channel's
guaranteed-response set, should_respond_to_message returns
(true, is_direct_mention) — hence (true, false) whenever the message
is not itself a direct mention — and removes the id from the set, so
a second evaluation no longer finds it there; the per-channel set is
deleted when emptied. -/
theorem guaranteed_response_consumed
    (d : DecideToRespond) (unsolicited : GenericMessage → Bool)
    (bot_user_id : ℕ) (m : GenericMessage) (g : Finset ℕ)
    (hg : d.guaranteed_responses m.channel_id = some g)
    (hmem : m.message_id ∈ g) :
    (should_respond_to_message d unsolicited bot_user_id m).1 =
      (true, is_directly_mentioned d bot_user_id m) ∧
    (∀ g2, ((should_respond_to_message d unsolicited bot_user_id m).2).guaranteed_responses
        m.channel_id = some g2 → m.message_id ∉ g2) ∧
    (g.erase m.message_id = ∅ →
      ((should_respond_to_message d unsolicited bot_user_id m).2).guaranteed_responses
        m.channel_id = none) ∧
    (g.erase m.message_id ≠ ∅ →
      ((should_respond_to_message d unsolicited bot_user_id m).2).guaranteed_responses
        m.channel_id = some (g.erase m.message_id)) := by
  have hcond : g.Nonempty ∧ m.message_id ∈ g := ⟨⟨_, hmem⟩, hmem⟩
  simp only [should_respond_to_message, hg]
  rw [if_pos hcond]
  refine ⟨rfl, ?_, ?_, ?_⟩
  · intro g2 hg2
    have hg2a : (if m.channel_id = m.channel_id then
        (if g.erase m.message_id = ∅ then none
         else some (g.erase m.message_id))
        else d.guaranteed_responses m.channel_id) = some g2 := hg2
    rw [if_pos rfl] at hg2a
    by_cases he : g.erase m.message_id = ∅
    · rw [if_pos he] at hg2a
      exact absurd hg2a (by simp)
    · rw [if_neg he] at hg2a
      injection hg2a with h
      rw [← h]
      exact Finset.not_mem_erase _ _
  · intro he
    show (if m.channel_id = m.channel_id then
        (if g.erase m.message_id = ∅ then none
         else some (g.erase m.message_id))
        else d.guaranteed_responses m.channel_id) = none
    rw [if_pos rfl, if_pos he]
  · intro he
    show (if m.channel_id = m.channel_id then
        (if g.erase m.message_id = ∅ then none
         else some (g.erase m.message_id))
        else d.guaranteed_responses m.channel_id) = some (g.erase m.message_id)
    rw [if_pos rfl, if_neg he]

/-- Witness for C4: evaluating the amended claim on dtrEx2 and the
non-mention message msgEx2. -/
theorem guaranteed_response_consumed_witness :
    (should_respond_to_message dtrEx2 (fun _ => false) 42 msgEx2).1 =
      (true, is_directly_mentioned dtrEx2 42 msgEx2) ∧
    (∀ g2, ((should_respond_to_message dtrEx2 (fun _ => false) 42 msgEx2).2).guaranteed_responses
        msgEx2.channel_id = some g2 → msgEx2.message_id ∉ g2) ∧
    (({5, 9} : Finset ℕ).erase msgEx2.message_id = ∅ →
      ((should_respond_to_message dtrEx2 (fun _ => false) 42 msgEx2).2).guaranteed_responses
        msgEx2.channel_id = none) ∧
    (({5, 9} : Finset ℕ).erase msgEx2.message_id ≠ ∅ →
      ((should_respond_to_message dtrEx2 (fun _ => false) 42 msgEx2).2).guaranteed_responses
        msgEx2.channel_id = some (({5, 9} : Finset ℕ).erase msgEx2.message_id)) :=
  guaranteed_response_consumed dtrEx2 (fun _ => false) 42 msgEx2 {5, 9}
    (by decide) (by decide)

/-- C10: a message whose id is in its channel's guaranteed-response
set is never dropped for panic and never routed through the
accumulation buffer; process_messages enqueues it directly, whatever
the panic state and accumulation period. -/
theorem guaranteed_bypasses_suppression
    (acc : ℚ) (panicking : Bool) (d : DecideToRespond) (uid : ℕ)
    (r : RawMessage) (g : Finset ℕ)
    (hmt : allowed_message_type r.mtype = true)
    (hck : respondable_channel r.ckind = true)
    (hg : d.guaranteed_responses r.channel_id = some g)
    (hmem : r.message_id ∈ g) :
    message_intake_route acc panicking d uid r = .enqueued_direct := by
  unfold message_intake_route
  rw [if_neg (by simp [hmt]), if_neg (by simp [hck])]
  have hguar : (match d.guaranteed_responses r.channel_id with
      | some g => decide g.Nonempty && decide (r.message_id ∈ g)
      | none => false) = true := by
    rw [hg]
    simp only [Bool.and_eq_true, decide_eq_true_eq]
    exact ⟨⟨_, hmem⟩, hmem⟩
  simp only [hguar]
  rw [if_neg (by simp), if_neg (by simp)]

/-- Witness for C10: message 5 guaranteed in channel 7 is enqueued
directly although the channel is panicking and an accumulation
period of 3 seconds is configured. -/
theorem guaranteed_bypasses_suppression_witness :
    message_intake_route 3 true dtrEx 42
      ⟨5, 7, 0, 11, false, "hi there", 0, [42], .default, .text⟩ =
      .enqueued_direct :=
  guaranteed_bypasses_suppression 3 true dtrEx 42
    ⟨5, 7, 0, 11, false, "hi there", 0, [42], .default, .text⟩ {5}
    (by decide) (by decide) (by decide) (by decide)

/-- Helper for C9: the queue map after the empty-queue collection, at
any channel, is either the original entry or removed. -/
theorem mq_gc_queues (mq : MessageQueue) (ch c : ℕ) :
    (mq_remove_empty_queue mq ch).queues c = mq.queues c ∨
    (mq_remove_empty_queue mq ch).queues c = none := by
  unfold mq_remove_empty_queue mq_remove_queue
  by_cases hq : mq.queues ch = some []
  · rw [if_pos hq]
    simp only
    by_cases hc : c = ch
    · right; rw [if_pos hc]
    · left; rw [if_neg hc]
  · rw [if_neg hq]
    left
    rfl

/-- Helper for C9: collecting an empty queue entry preserves the
absence of empty queue entries. -/
theorem noEmpty_gc (mq : MessageQueue) (ch : ℕ) (h : NoEmptyQueues mq) :
    NoEmptyQueues (mq_remove_empty_queue mq ch) := by
  intro c
  rcases mq_gc_queues mq ch c with hc | hc
  · rw [hc]; exact h c
  · rw [hc]; simp

/-- Helper for C9: setting a channel's queue to a nonempty list and
then collecting leaves no channel mapped to an empty queue. -/
theorem noEmpty_set_then_gc (mq : MessageQueue) (ch : ℕ) (l : List ℕ)
    (h : NoEmptyQueues mq) :
    NoEmptyQueues (mq_remove_empty_queue (mq_set_queue mq ch l) ch) := by
  intro c
  rcases mq_gc_queues (mq_set_queue mq ch l) ch c with hc | hc
  · rw [hc]
    unfold mq_set_queue
    simp only
    by_cases hcc : c = ch
    · rw [if_pos hcc]
      intro he
      injection he with he
      subst he
      subst hcc
      have hset : (mq_set_queue mq c []).queues c = some [] := by
        unfold mq_set_queue; simp
      have hgc : mq_remove_empty_queue (mq_set_queue mq c []) c =
          mq_remove_queue (mq_set_queue mq c []) c := by
        unfold mq_remove_empty_queue
        rw [if_pos hset]
      rw [hgc] at hc
      unfold mq_remove_queue at hc
      have hc2 : (if c = c then none else (mq_set_queue mq c []).queues c) =
          (mq_set_queue mq c []).queues c := hc
      rw [if_pos rfl, hset] at hc2
      exact absurd hc2 (by simp)
    · rw [if_neg hcc]; exact h c
  · rw [hc]; simp

/-- Helper for C9: the touched channel's entry after a set-then-collect
is the new list, or is removed when the new list is empty. -/
theorem mq_set_gc_at (mq : MessageQueue) (ch : ℕ) (l : List ℕ) :
    (mq_remove_empty_queue (mq_set_queue mq ch l) ch).queues ch =
      if l = [] then none else some l := by
  have hset : (mq_set_queue mq ch l).queues ch = some l := by
    unfold mq_set_queue; simp
  unfold mq_remove_empty_queue
  by_cases hl : l = []
  · subst hl
    rw [if_pos (by rw [hset]), if_pos rfl]
    unfold mq_remove_queue
    simp
  · rw [if_neg (by rw [hset]; simpa using hl), hset, if_neg hl]

/-- Helper for C9: a set-then-collect never leaves the touched channel
mapped to an empty queue. -/
theorem mq_set_gc_at_ne (mq : MessageQueue) (ch : ℕ) (l : List ℕ) :
    (mq_remove_empty_queue (mq_set_queue mq ch l) ch).queues ch ≠ some [] := by
  rw [mq_set_gc_at]
  by_cases hl : l = []
  · simp [hl]
  · simp [hl]

/-- Helper for C9: the empty-queue collection does not touch the
response-task map. -/
theorem mq_gc_tasks (mq : MessageQueue) (ch : ℕ) :
    (mq_remove_empty_queue mq ch).response_tasks = mq.response_tasks := by
  unfold mq_remove_empty_queue mq_remove_queue
  by_cases hq : mq.queues ch = some []
  · rw [if_pos hq]
  · rw [if_neg hq]

/-- C9: every removal operation of MessageQueue (pop, popleft, clear,
remove, item deletion) leaves the touched channel unmapped or mapped
to a nonempty queue, and preserves the invariant that no channel is
mapped to an empty queue; the response-task done-callback removes the
task entry and any now-empty queue entry of its channel, preserving
the same invariant. -/
theorem queue_gc_eager :
    (∀ (mq : MessageQueue) (ch m : ℕ) (mq2 : MessageQueue),
      mq_pop mq ch = some (m, mq2) →
      mq2.queues ch ≠ some [] ∧ (NoEmptyQueues mq → NoEmptyQueues mq2)) ∧
    (∀ (mq : MessageQueue) (ch m : ℕ) (mq2 : MessageQueue),
      mq_popleft mq ch = some (m, mq2) →
      mq2.queues ch ≠ some [] ∧ (NoEmptyQueues mq → NoEmptyQueues mq2)) ∧
    (∀ (mq : MessageQueue) (ch : ℕ) (mq2 : MessageQueue),
      mq_clear mq ch = some mq2 →
      mq2.queues ch = none ∧ (NoEmptyQueues mq → NoEmptyQueues mq2)) ∧
    (∀ (mq : MessageQueue) (ch m : ℕ) (mq2 : MessageQueue),
      mq_remove mq ch m = some mq2 →
      mq2.queues ch ≠ some [] ∧ (NoEmptyQueues mq → NoEmptyQueues mq2)) ∧
    (∀ (mq : MessageQueue) (ch i : ℕ) (mq2 : MessageQueue),
      mq_delitem mq ch i = some mq2 →
      mq2.queues ch ≠ some [] ∧ (NoEmptyQueues mq → NoEmptyQueues mq2)) ∧
    (∀ (mq : MessageQueue) (ch : ℕ),
      (mq_done_callback mq ch).response_tasks ch = none ∧
      (mq_done_callback mq ch).queues ch ≠ some [] ∧
      (NoEmptyQueues mq → NoEmptyQueues (mq_done_callback mq ch))) := by
  refine ⟨?_, ?_, ?_, ?_, ?_, ?_⟩
  · intro mq ch m mq2 hp
    unfold mq_pop at hp
    cases hq : mq.queues ch with
    | none => rw [hq] at hp; exact absurd hp (by simp)
    | some l =>
        rw [hq] at hp
        have hp2 : (match l.getLast? with
          | none => none
          | some m =>
              some (m, mq_remove_empty_queue (mq_set_queue mq ch l.dropLast) ch)) =
            some (m, mq2) := hp
        cases hl : l.getLast? with
        | none => rw [hl] at hp2; exact absurd hp2 (by simp)
        | some m0 =>
            rw [hl] at hp2
            injection hp2 with hp2
            injection hp2 with hp1 hp3
            subst hp3
            exact ⟨mq_set_gc_at_ne mq ch l.dropLast,
              fun h => noEmpty_set_then_gc mq ch l.dropLast h⟩
  · intro mq ch m mq2 hp
    unfold mq_popleft at hp
    cases hq : mq.queues ch with
    | none => rw [hq] at hp; exact absurd hp (by simp)
    | some l =>
        rw [hq] at hp
        cases l with
        | nil => exact absurd hp (by simp)
        | cons a rest =>
            injection hp with hp
            injection hp with hp1 hp2
            subst hp2
            exact ⟨mq_set_gc_at_ne mq ch rest,
              fun h => noEmpty_set_then_gc mq ch rest h⟩
  · intro mq ch mq2 hp
    unfold mq_clear at hp
    cases hq : mq.queues ch with
    | none => rw [hq] at hp; exact absurd hp (by simp)
    | some l =>
        rw [hq] at hp
        injection hp with hp
        subst hp
        refine ⟨?_, fun h => noEmpty_set_then_gc mq ch [] h⟩
        rw [mq_set_gc_at]
        simp
  · intro mq ch m mq2 hp
    unfold mq_remove at hp
    cases hq : mq.queues ch with
    | none => rw [hq] at hp; exact absurd hp (by simp)
    | some l =>
        rw [hq] at hp
        have hp2 : (if m ∈ l then
            some (mq_remove_empty_queue (mq_set_queue mq ch (l.erase m)) ch)
          else none) = some mq2 := hp
        by_cases hm : m ∈ l
        · rw [if_pos hm] at hp2
          injection hp2 with hp2
          subst hp2
          exact ⟨mq_set_gc_at_ne mq ch (l.erase m),
            fun h => noEmpty_set_then_gc mq ch (l.erase m) h⟩
        · rw [if_neg hm] at hp2
          exact absurd hp2 (by simp)
  · intro mq ch i mq2 hp
    unfold mq_delitem at hp
    cases hq : mq.queues ch with
    | none =>
        rw [hq] at hp
        injection hp with hp
        subst hp
        exact ⟨by rw [hq]; simp, fun h => h⟩
    | some l =>
        rw [hq] at hp
        have hp2 : (if i < l.length then
            some (mq_remove_empty_queue (mq_set_queue mq ch (l.eraseIdx i)) ch)
          else none) = some mq2 := hp
        by_cases hi : i < l.length
        · rw [if_pos hi] at hp2
          injection hp2 with hp2
          subst hp2
          exact ⟨mq_set_gc_at_ne mq ch (l.eraseIdx i),
            fun h => noEmpty_set_then_gc mq ch (l.eraseIdx i) h⟩
        · rw [if_neg hi] at hp2
          exact absurd hp2 (by simp)
  · intro mq ch
    refine ⟨?_, ?_, ?_⟩
    · unfold mq_done_callback
      rw [mq_gc_tasks]
      simp
    · unfold mq_done_callback mq_remove_empty_queue mq_remove_queue
      by_cases hq : mq.queues ch = some []
      · rw [if_pos (by simpa using hq)]
        simp
      · rw [if_neg (by simpa using hq)]
        simpa using hq
    · intro h
      exact noEmpty_gc _ ch (fun c => h c)

/-- Witness for C9: popping the single message of channel 7 from a
concrete queue map removes the channel entry and keeps the invariant. -/
theorem queue_gc_eager_witness :
    (mq_pop ⟨fun c => if c = 7 then some [5] else none, fun _ => none⟩ 7 =
      some (5, mq_remove_empty_queue
        (mq_set_queue ⟨fun c => if c = 7 then some [5] else none,
          fun _ => none⟩ 7 [])
        7)) ∧
    (mq_remove_empty_queue
      (mq_set_queue ⟨fun c => if c = 7 then some [5] else none,
        fun _ => none⟩ 7 []) 7).queues 7 ≠ some [] := by
  constructor
  · rfl
  · exact (queue_gc_eager.1 ⟨fun c => if c = 7 then some [5] else none,
      fun _ => none⟩ 7 5 _ rfl).1

/-- Helper for C6: in an ascending sorted list, the element at index i
bounds every element of the drop at i from below. -/
theorem sorted_getD_le_of_mem_drop {s : List ℚ} (hs : s.Sorted (· ≤ ·))
    {i : ℕ} (hi : i < s.length) {x : ℚ} (hx : x ∈ s.drop i) :
    s.getD i 0 ≤ x := by
  obtain ⟨k, hk, rfl⟩ := List.getElem_of_mem hx
  rw [List.getElem_drop]
  rw [List.getD_eq_getElem _ _ hi]
  have hik : i + k < s.length := by
    rw [List.length_drop] at hk
    omega
  have := hs.rel_get_of_le (a := ⟨i, hi⟩) (b := ⟨i + k, hik⟩)
    (by simp [Fin.le_def])
  simpa using this

/-- Helper for C6: in an ascending sorted list, the element at index i
bounds every element of the take at i+1 from above. -/
theorem sorted_mem_take_le_getD {s : List ℚ} (hs : s.Sorted (· ≤ ·))
    {i : ℕ} (hi : i < s.length) {x : ℚ} (hx : x ∈ s.take (i + 1)) :
    x ≤ s.getD i 0 := by
  obtain ⟨k, hk, rfl⟩ := List.getElem_of_mem hx
  rw [List.getElem_take]
  rw [List.getD_eq_getElem _ _ hi]
  rw [List.length_take] at hk
  have hks : k < s.length := by omega
  have := hs.rel_get_of_le (a := ⟨k, hks⟩) (b := ⟨i, hi⟩)
    (by simp [Fin.le_def]; omega)
  simpa using this

/-- Helper for C6: a sorted list has at least cap elements at or above
its cap-th largest element. -/
theorem countP_ge_of_sorted {s : List ℚ} (hs : s.Sorted (· ≤ ·))
    {cap : ℕ} (hcap : 1 ≤ cap) (hlen : cap ≤ s.length) :
    cap ≤ s.countP (fun x => decide (s.getD (s.length - cap) 0 ≤ x)) := by
  have hi : s.length - cap < s.length := by omega
  set v := s.getD (s.length - cap) 0 with hv
  conv_rhs => rw [← List.take_append_drop (s.length - cap) s]
  rw [List.countP_append]
  have hdrop : (s.drop (s.length - cap)).countP
      (fun x => decide (v ≤ x)) =
      (s.drop (s.length - cap)).length := by
    rw [List.countP_eq_length]
    intro a ha
    simp only [decide_eq_true_eq]
    exact sorted_getD_le_of_mem_drop hs hi ha
  rw [hdrop, List.length_drop]
  omega

/-- Helper for C6: if at least cap elements of a sorted list are at or
above v, then the cap-th largest element is at or above v. -/
theorem getD_ge_of_countP {s : List ℚ} (hs : s.Sorted (· ≤ ·)) {v : ℚ}
    {cap : ℕ} (hcap : 1 ≤ cap) (hlen : cap ≤ s.length)
    (hcount : cap ≤ s.countP (fun x => decide (v ≤ x))) :
    v ≤ s.getD (s.length - cap) 0 := by
  by_contra hlt
  push_neg at hlt
  have hi : s.length - cap < s.length := by omega
  have hsplit := List.take_append_drop (s.length - cap + 1) s
  have hcnt : s.countP (fun x => decide (v ≤ x)) =
      (s.take (s.length - cap + 1)).countP (fun x => decide (v ≤ x)) +
      (s.drop (s.length - cap + 1)).countP (fun x => decide (v ≤ x)) := by
    conv_lhs => rw [← hsplit]
    rw [List.countP_append]
  have htake : (s.take (s.length - cap + 1)).countP
      (fun x => decide (v ≤ x)) = 0 := by
    rw [List.countP_eq_zero]
    intro a ha
    have := sorted_mem_take_le_getD hs hi ha
    simp only [decide_eq_true_eq]
    intro hva
    exact absurd (le_trans hva this) (not_le.mpr hlt)
  have hdrop : (s.drop (s.length - cap + 1)).countP
      (fun x => decide (v ≤ x)) ≤ cap - 1 := by
    have h1 : (s.drop (s.length - cap + 1)).countP (fun x => decide (v ≤ x)) ≤
        (s.drop (s.length - cap + 1)).length := List.countP_le_length _
    rw [List.length_drop] at h1
    omega
  omega

/-- Helper for C6: the cap-th largest value of a sublist is at most the
cap-th largest value of the full list. -/
theorem nth_largest_le_of_sublist {l1 l2 : List ℚ} (hsub : List.Sublist l1 l2)
    {cap : ℕ} (hcap : 1 ≤ cap) (hlen : cap < l1.length) :
    nth_largest l1 cap ≤ nth_largest l2 cap := by
  unfold nth_largest
  set s1 := l1.insertionSort (· ≤ ·) with hs1
  set s2 := l2.insertionSort (· ≤ ·) with hs2
  have hsort1 : s1.Sorted (· ≤ ·) := List.sorted_insertionSort _ _
  have hsort2 : s2.Sorted (· ≤ ·) := List.sorted_insertionSort _ _
  have hlen1 : s1.length = l1.length := List.length_insertionSort _ _
  have hlen2 : s2.length = l2.length := List.length_insertionSort _ _
  set v := s1.getD (l1.length - cap) 0 with hv
  have hcount1 : cap ≤ s1.countP (fun x => decide (v ≤ x)) := by
    have := countP_ge_of_sorted hsort1 hcap (by omega)
    rwa [hlen1] at this
  have hcountl1 : cap ≤ l1.countP (fun x => decide (v ≤ x)) := by
    rwa [(List.perm_insertionSort (· ≤ ·) l1).countP_eq] at hcount1
  have hcountl2 : cap ≤ l2.countP (fun x => decide (v ≤ x)) :=
    le_trans hcountl1 (hsub.countP_le _)
  have hcount2 : cap ≤ s2.countP (fun x => decide (v ≤ x)) := by
    rwa [← (List.perm_insertionSort (· ≤ ·) l2).countP_eq] at hcountl2
  have hlen2a : cap ≤ l2.length := le_trans (le_of_lt hlen) hsub.length_le
  have := getD_ge_of_countP hsort2 hcap (by omega) hcount2
  rwa [hlen2] at this

/-- Helper for C6: the cache-timeout part never exceeds the purge
threshold. -/
theorem purge_threshold_le (latest : ℚ) (lmt : LastMentionTimes) :
    latest - lmt.cache_timeout ≤ purge_threshold latest lmt := by
  unfold purge_threshold
  by_cases hc : lmt.unsolicited_channel_cap ≠ 0 ∧
      lmt.unsolicited_channel_cap < lmt.entries.length
  · rw [if_pos hc]; exact le_max_left _ _
  · rw [if_neg hc]

/-- Helper for C6: every entry surviving a purge is at or above the
threshold the purged state would compute, so a second purge removes
nothing. -/
theorem purge_threshold_stable (latest : ℚ) (lmt : LastMentionTimes) :
    ∀ p ∈ (purge_outdated latest lmt).2.entries,
      purge_threshold latest (purge_outdated latest lmt).2 ≤ p.2 := by
  intro p hp
  have hpe : (purge_outdated latest lmt).2.entries =
      lmt.entries.filter (fun q => decide (purge_threshold latest lmt ≤ q.2)) := rfl
  have hp2 : purge_threshold latest lmt ≤ p.2 := by
    rw [hpe] at hp
    simpa using (List.mem_filter.mp hp).2
  have hct : (purge_outdated latest lmt).2.cache_timeout = lmt.cache_timeout := rfl
  have hcap : (purge_outdated latest lmt).2.unsolicited_channel_cap =
      lmt.unsolicited_channel_cap := rfl
  unfold purge_threshold
  by_cases hc : (purge_outdated latest lmt).2.unsolicited_channel_cap ≠ 0 ∧
      (purge_outdated latest lmt).2.unsolicited_channel_cap <
        (purge_outdated latest lmt).2.entries.length
  · rw [if_pos hc]
    rw [hct]
    apply max_le
    · exact le_trans (purge_threshold_le latest lmt) hp2
    · have hsub : List.Sublist ((purge_outdated latest lmt).2.entries.map Prod.snd)
          (lmt.entries.map Prod.snd) := by
        rw [hpe]
        exact List.Sublist.map _ (List.filter_sublist _)
      have hlen1 : (purge_outdated latest lmt).2.entries.length ≤
          lmt.entries.length := by
        rw [hpe]
        exact List.length_filter_le _ _
      have hc1 : lmt.unsolicited_channel_cap ≠ 0 ∧
          lmt.unsolicited_channel_cap < lmt.entries.length := by
        rcases hc with ⟨h1, h2⟩
        rw [hcap] at h1 h2
        exact ⟨h1, lt_of_lt_of_le h2 hlen1⟩
      have hv12 : nth_largest ((purge_outdated latest lmt).2.entries.map Prod.snd)
            (purge_outdated latest lmt).2.unsolicited_channel_cap ≤
          nth_largest (lmt.entries.map Prod.snd) lmt.unsolicited_channel_cap := by
        rw [hcap]
        apply nth_largest_le_of_sublist hsub
        · omega
        · rw [List.length_map]
          rw [hcap] at hc
          exact hc.2
      have hv1 : nth_largest (lmt.entries.map Prod.snd)
            lmt.unsolicited_channel_cap ≤ purge_threshold latest lmt := by
        unfold purge_threshold
        rw [if_pos hc1]
        exact le_max_right _ _
      exact le_trans hv12 (le_trans hv1 hp2)
  · rw [if_neg hc]
    rw [hct]
    exact le_trans (purge_threshold_le latest lmt) hp2

/-- Helper for C6: purge_outdated is idempotent on the whole state,
return flag included. -/
theorem purge_outdated_idem (latest : ℚ) (lmt : LastMentionTimes) :
    purge_outdated latest (purge_outdated latest lmt).2 =
      purge_outdated latest lmt := by
  have hfe : (purge_outdated latest lmt).2.entries.filter
      (fun q => decide (purge_threshold latest (purge_outdated latest lmt).2 ≤ q.2)) =
      (purge_outdated latest lmt).2.entries :=
    List.filter_eq_self.mpr
      (fun a ha => by simpa using purge_threshold_stable latest lmt a ha)
  have h1 : purge_outdated latest (purge_outdated latest lmt).2 =
      (!(((purge_outdated latest lmt).2.entries.filter
          (fun q => decide
            (purge_threshold latest (purge_outdated latest lmt).2 ≤ q.2)))).isEmpty,
       { (purge_outdated latest lmt).2 with
         entries := (purge_outdated latest lmt).2.entries.filter
           (fun q => decide
             (purge_threshold latest (purge_outdated latest lmt).2 ≤ q.2)),
         cooldowns := (purge_outdated latest lmt).2.cooldowns.filter
           (fun c => (((purge_outdated latest lmt).2.entries.filter
             (fun q => decide
               (purge_threshold latest (purge_outdated latest lmt).2 ≤ q.2))).map
                 Prod.fst).contains c) }) := rfl
  rw [h1]
  simp only [hfe]
  have hcd : (purge_outdated latest lmt).2.cooldowns.filter
      (fun c => (((purge_outdated latest lmt).2.entries).map Prod.fst).contains c) =
      (purge_outdated latest lmt).2.cooldowns := by
    apply List.filter_eq_self.mpr
    intro c hc
    have hcd2 : (purge_outdated latest lmt).2.cooldowns =
        lmt.cooldowns.filter
          (fun c => (((purge_outdated latest lmt).2.entries).map Prod.fst).contains c) := rfl
    rw [hcd2] at hc
    exact (List.mem_filter.mp hc).2
  rw [hcd]
  rfl

/-- Helper for C6: a filterMap that maps every member of a list to
itself leaves the list unchanged. -/
theorem filterMap_eq_self_of {α : Type} (f : α → Option α) (l : List α)
    (h : ∀ x ∈ l, f x = some x) : l.filterMap f = l := by
  induction l with
  | nil => rfl
  | cons a t ih =>
      rw [List.filterMap_cons, h a (List.mem_cons_self a t),
        ih (fun x hx => h x (List.mem_cons_of_mem a hx))]

/-- Helper for C6: the guild purge pass is idempotent. -/
theorem purge_guilds_idem (ts : ℚ) (guilds : List (ℕ × LastMentionTimes)) :
    purge_guilds ts (purge_guilds ts guilds) = purge_guilds ts guilds := by
  unfold purge_guilds
  rw [List.filterMap_map, List.filterMap_map]
  apply filterMap_eq_self_of
  intro x hx
  obtain ⟨q, hq, hfq⟩ := List.mem_filterMap.mp hx
  simp only [Function.comp] at hfq ⊢
  by_cases hb : (purge_outdated ts q.2).1 = true
  · rw [if_pos hb] at hfq
    injection hfq with hfq
    subst hfq
    rw [purge_outdated_idem ts q.2, if_pos hb]
  · rw [if_neg hb] at hfq
    exact absurd hfq (by simp)

/-- C6: for every tracker state and message, calling
time_since_last_mention twice in a row yields the same result and the
second call leaves the tracker state unchanged — the purge, cache
timeout and channel-cap eviction included, is idempotent relative to
the message timestamp. -/
theorem time_since_last_mention_idem (m : GenericMessage)
    (guilds : List (ℕ × LastMentionTimes)) :
    dtr_time_since_last_mention m (dtr_time_since_last_mention m guilds).1 =
      dtr_time_since_last_mention m guilds := by
  show (purge_guilds m.send_timestamp (purge_guilds m.send_timestamp guilds),
        dtr_answer m (purge_guilds m.send_timestamp
          (purge_guilds m.send_timestamp guilds))) =
       (purge_guilds m.send_timestamp guilds,
        dtr_answer m (purge_guilds m.send_timestamp guilds))
  rw [purge_guilds_idem]

/-- C2: the code drops text that was valid before the abort.  On the
claimed input the filter returns the empty string with the abort
flag, not the accumulated prefix: the line-loop break on abort runs
before the kept sentences of the triggering line are joined, so the
sentence before the impersonation, and likewise the stop-marker
keep_part, are discarded.  Only lines completed before the triggering
line survive, as the third conjunct shows. -/
theorem immersion_filter_drops_valid_text :
    filter ctxEx "Hello there. UserB: I am now UserB." = ("", true) ∧
    filter ctxEx2 "Hi there. Bye### stop." = ("", true) ∧
    filter ctxEx "A fine day.\nAnother line. UserB: hij." = ("A fine day.\n", true) := by
  refine ⟨by decide, by decide, by decide⟩

/-- Helper for C1: with distinct ids, looking a task up by its id
finds it. -/
theorem find_tid_nodup : ∀ (l : List RTask), (l.map RTask.tid).Nodup →
    ∀ t ∈ l, l.find? (fun x => x.tid == t.tid) = some t := by
  intro l
  induction l with
  | nil => intro _ t ht; exact absurd ht (List.not_mem_nil t)
  | cons a rest ih =>
      intro hnd t ht
      rcases List.mem_cons.mp ht with rfl | ht2
      · rw [List.find?_cons_of_pos _ (by simp)]
      · have hne : a.tid ≠ t.tid := by
          intro he
          have : t.tid ∈ rest.map RTask.tid := List.mem_map_of_mem _ ht2
          rw [List.map_cons] at hnd
          exact (List.nodup_cons.mp hnd).1 (he ▸ this)
        rw [List.find?_cons_of_neg _ (by simp [hne])]
        exact ih (by rw [List.map_cons] at hnd; exact (List.nodup_cons.mp hnd).2) t ht2

/-- Helper for C1: when the channel is not responding, every task of
the channel has finished. -/
theorem all_done_of_not_responding {s : OrchState} (hinv : OrchInv s)
    (hnr : is_responding s = false) : ∀ t ∈ s.tasks, t.done = true := by
  intro t ht
  by_contra hd
  have hd2 : t.done = false := by
    cases hdone : t.done
    · rfl
    · exact absurd hdone hd
  have hreg := hinv.2.2 t ht hd2
  unfold is_responding at hnr
  rw [hreg] at hnr
  have hfind : s.tasks.find? (fun x => x.tid == t.tid) = some t :=
    find_tid_nodup s.tasks hinv.2.1 t ht
  have hnr2 : (!(task_done s t.tid)) = false := hnr
  unfold task_done at hnr2
  rw [hfind] at hnr2
  simp [hd2] at hnr2

/-- Helper for C1: starting a fresh task preserves the invariant when
all previous tasks are done. -/
theorem spawn_inv {s : OrchState} (hinv : OrchInv s)
    (hdone : ∀ t ∈ s.tasks, t.done = true) : OrchInv (spawn s) := by
  unfold spawn OrchInv
  refine ⟨?_, ?_, ?_⟩
  · intro t ht
    rcases List.mem_append.mp ht with h | h
    · exact Nat.lt_succ_of_lt (hinv.1 t h)
    · simp at h
      subst h
      exact Nat.lt_succ_self _
  · rw [List.map_append]
    apply List.Nodup.append hinv.2.1 (by simp)
    intro a ha hb
    simp at hb
    subst hb
    obtain ⟨t, ht, htid⟩ := List.mem_map.mp ha
    exact absurd (htid ▸ hinv.1 t ht) (lt_irrefl _)
  · intro t ht hd
    rcases List.mem_append.mp ht with h | h
    · exact absurd (hdone t h) (by simp [hd])
    · simp at h
      subst h
      rfl

/-- Helper for C1: completing the registered task preserves the
invariant. -/
theorem complete_inv {s : OrchState} (hinv : OrchInv s) :
    OrchInv (complete s) := by
  unfold complete
  cases hreg : s.registered with
  | none => exact hinv
  | some i =>
      refine ⟨?_, ?_, ?_⟩
      · intro t ht
        obtain ⟨t0, ht0, hmap⟩ := List.mem_map.mp ht
        have htid : t.tid = t0.tid := by
          rw [← hmap]
          show RTask.tid (if t0.tid == i then { t0 with done := true } else t0) = t0.tid
          split <;> rfl
        rw [htid]
        exact hinv.1 t0 ht0
      · have hmt : (List.map RTask.tid
            (s.tasks.map (fun t => if t.tid == i then { t with done := true } else t))) =
            s.tasks.map RTask.tid := by
          rw [List.map_map]
          apply List.map_congr_left
          intro t ht
          show RTask.tid (if t.tid == i then { t with done := true } else t) = t.tid
          split <;> rfl
        rw [hmt]
        exact hinv.2.1
      · intro t ht hd
        obtain ⟨t0, ht0, hmap⟩ := List.mem_map.mp ht
        by_cases h : (t0.tid == i) = true
        · rw [if_pos h] at hmap
          subst hmap
          simp at hd
        · rw [if_neg h] at hmap
          subst hmap
          have hr2 := hinv.2.2 t0 ht0 hd
          rw [hreg] at hr2
          injection hr2 with hr2
          exact absurd hr2.symm (by simpa using h)

/-- Helper for C1: the guarded start preserves the invariant. -/
theorem maybe_spawn_inv {s : OrchState} (hinv : OrchInv s) :
    OrchInv (maybe_spawn s) := by
  unfold maybe_spawn
  by_cases hc : is_responding s = true ∨ s.queue = []
  · rw [if_pos hc]; exact hinv
  · rw [if_neg hc]
    push_neg at hc
    exact spawn_inv hinv
      (all_done_of_not_responding hinv (by simpa using hc.1))

/-- Helper for C1: the post-await continuation preserves the
invariant. -/
theorem resume_body_inv {s : OrchState} (lo : Bool) (m : ℕ) (hinv : OrchInv s) :
    OrchInv (resume_body lo m s) := by
  unfold resume_body
  by_cases hq : m ∈ s.queue
  · rw [if_pos hq]
    apply maybe_spawn_inv
    by_cases hl : lo = true ∧ 1 < s.queue.length
    · rw [if_pos hl]; exact hinv
    · rw [if_neg hl]; exact hinv
  · rw [if_neg hq]; exact hinv

/-- Helper for C1: every event preserves the invariant. -/
theorem step_inv {s s2 : OrchState} (hinv : OrchInv s) (hs : Step s s2) :
    OrchInv s2 := by
  cases hs with
  | arrive_no_task m s hnr => exact maybe_spawn_inv hinv
  | arrive_ignorable m s hr2 => exact hinv
  | arrive_cancel m s hr2 => exact complete_inv hinv
  | resume m latest_only s hm => exact resume_body_inv latest_only m hinv
  | finish s hr2 => exact complete_inv hinv
  | drain s hr2 hq => exact hinv

/-- Helper for C1: the invariant holds in every reachable state. -/
theorem reachable_inv {s : OrchState} (h : Reachable s) : OrchInv s := by
  induction h with
  | init =>
      exact ⟨fun t ht => absurd ht (List.not_mem_nil t), by simp,
        fun t ht _ => absurd ht (List.not_mem_nil t)⟩
  | step hr hs ih => exact step_inv ih hs

/-- Helper for C1: under the invariant at most one task is running. -/
theorem active_count_le_one {s : OrchState} (hinv : OrchInv s) :
    active_count s ≤ 1 := by
  unfold active_count
  cases hfl : s.tasks.filter (fun t => !t.done) with
  | nil => simp
  | cons a l2 =>
      cases l2 with
      | nil => simp
      | cons b l3 =>
          exfalso
          have ha : a ∈ s.tasks.filter (fun t => !t.done) := by
            rw [hfl]; exact List.mem_cons_self _ _
          have hb : b ∈ s.tasks.filter (fun t => !t.done) := by
            rw [hfl]; simp
          have ha1 := List.mem_of_mem_filter ha
          have hb1 := List.mem_of_mem_filter hb
          have ha2 : a.done = false := by simpa using List.of_mem_filter ha
          have hb2 : b.done = false := by simpa using List.of_mem_filter hb
          have hra := hinv.2.2 a ha1 ha2
          have hrb := hinv.2.2 b hb1 hb2
          rw [hra] at hrb
          injection hrb with htid
          have hsub : List.Sublist
              ((s.tasks.filter (fun t => !t.done)).map RTask.tid)
              (s.tasks.map RTask.tid) :=
            List.Sublist.map RTask.tid (List.filter_sublist s.tasks)
          have hnd := hinv.2.1.sublist hsub
          rw [hfl] at hnd
          rw [List.map_cons, List.map_cons] at hnd
          have := (List.nodup_cons.mp hnd).1
          exact this (htid ▸ List.mem_cons_self _ _)

/-- Helper for C1: the guarded start only creates a task when the
channel is not responding. -/
theorem maybe_spawn_grow {s : OrchState}
    (h : s.tasks.length < (maybe_spawn s).tasks.length) :
    is_responding s = false := by
  unfold maybe_spawn at h
  by_cases hc : is_responding s = true ∨ s.queue = []
  · rw [if_pos hc] at h; exact absurd h (lt_irrefl _)
  · push_neg at hc
    simpa using hc.1

/-- Helper for C1: completion creates no task. -/
theorem complete_tasks_length (s : OrchState) :
    (complete s).tasks.length = s.tasks.length := by
  unfold complete
  cases s.registered with
  | none => rfl
  | some i => simp

/-- Helper for C1: the post-await continuation only creates a task
when the channel is not responding. -/
theorem resume_body_grow {s : OrchState} (lo : Bool) (m : ℕ)
    (h : s.tasks.length < (resume_body lo m s).tasks.length) :
    is_responding s = false := by
  unfold resume_body at h
  by_cases hq : m ∈ s.queue
  · rw [if_pos hq] at h
    by_cases hl : lo = true ∧ 1 < s.queue.length
    · rw [if_pos hl] at h
      exact maybe_spawn_grow (s := { s with queue := [m] }) h
    · rw [if_neg hl] at h
      exact maybe_spawn_grow (s := { s with queue := s.queue ++ [m] }) h
  · rw [if_neg hq] at h
    exact absurd h (lt_irrefl _)

/-- C1: in every reachable per-channel state (with
skip_in_progress_responses enabled) at most one response task is
running at any instant, and every event that starts a new response
task does so from a state where every previously created task for
the channel has finished — a superseding start has cancelled and
awaited the previous task before restarting. -/
theorem single_flight_per_channel :
    (∀ s : OrchState, Reachable s → active_count s ≤ 1) ∧
    (∀ s s2 : OrchState, Reachable s → Step s s2 →
      s.tasks.length < s2.tasks.length → ∀ t ∈ s.tasks, t.done = true) := by
  constructor
  · intro s hr
    exact active_count_le_one (reachable_inv hr)
  · intro s s2 hr hs hlen
    cases hs with
    | arrive_no_task m s hnr =>
        exact all_done_of_not_responding (reachable_inv hr) hnr
    | arrive_ignorable m s hr2 =>
        exact absurd hlen (lt_irrefl _)
    | arrive_cancel m s hr2 =>
        rw [complete_tasks_length] at hlen
        exact absurd hlen (lt_irrefl _)
    | resume m latest_only s hm =>
        exact all_done_of_not_responding (reachable_inv hr)
          (resume_body_grow (s := { s with pending := s.pending.erase m })
            latest_only m hlen)
    | finish s hr2 =>
        rw [complete_tasks_length] at hlen
        exact absurd hlen (lt_irrefl _)
    | drain s hr2 hq =>
        exact absurd hlen (lt_irrefl _)

/-- Witness for C1: a first message arrives on an idle channel and a
response task starts; the reachable successor state has at most one
running task, and the task-creating step started from a state whose
tasks were all done. -/
theorem single_flight_witness :
    active_count (maybe_spawn { orch_init with queue := 5 :: orch_init.queue }) ≤ 1 ∧
    (∀ t ∈ orch_init.tasks, t.done = true) :=
  ⟨single_flight_per_channel.1 _
      (Reachable.step Reachable.init (Step.arrive_no_task 5 orch_init (by decide))),
   single_flight_per_channel.2 orch_init _ Reachable.init
      (Step.arrive_no_task 5 orch_init (by decide)) (by decide)⟩
